import Mathlib

/-!
Verification of the `plugin-transport-stdio` bridge (Go): a shallow embedding
of the stdio JSON-RPC transport loop, its dispatcher and handlers
(`internal/transport.go`, `internal/handler.go`) and the protobuf/MCP value
translator (`internal/translator.go`), together with theorems settling the
specification claims about them.

Modelling conventions:
- Go `float64` JSON numbers are modelled as `Rat` (no claim depends on
  floating-point rounding or formatting).
- Go maps (`map[string]*structpb.Value`, `map[string]any`) are modelled as
  association lists; Go map iteration order is unspecified, the list order
  stands in for one arbitrary order.
- Fallible Go calls return `Except String` carrying the error text.
- Library code outside this repository (`encoding/json`, `structpb`) is
  modelled by its documented semantics where the repository code calls it;
  exact library error-message texts are abbreviated (no claim inspects them).
-/

namespace TransportStdio

/-- Model of a dynamic Go value (`any`) as produced by `encoding/json`
decoding and by `valueToInterface`: the JSON kinds plus two constructors for
Go values outside the JSON model: `nilMap` is a typed nil `map[string]any`
(what `StructToMap(nil)` returns), and `unsupported` stands for any Go value
that `structpb.NewValue` rejects (its argument is a description used in the
synthesized error text). -/
inductive JVal where
  | null : JVal
  | boolean : Bool → JVal
  | number : Rat → JVal
  | str : String → JVal
  | arr : List JVal → JVal
  | obj : List (String × JVal) → JVal
  | nilMap : JVal
  | unsupported : String → JVal

/-- Model of `structpb.Value` (`internal/translator.go` works over these).
`structValue`/`listValue` carry `Option` because the inner `*Struct` /
`*ListValue` pointers can be nil; `unknownKind` is a `Value` whose `Kind`
oneof is unset or unrecognized (the `default` branch of `valueToInterface`). -/
inductive PbValue where
  | nullValue : PbValue
  | numberValue : Rat → PbValue
  | stringValue : String → PbValue
  | boolValue : Bool → PbValue
  | structValue : Option (List (String × PbValue)) → PbValue
  | listValue : Option (List PbValue) → PbValue
  | unknownKind : PbValue

/-- The field map of a `structpb.Struct` (entries are non-nil `*Value`s, as
produced by deserialization and by `structpb.NewStruct`). -/
abbrev PbStruct := List (String × PbValue)

/-- Association-list lookup, modelling Go map indexing `m[k]` with `ok`. -/
def getField (fields : PbStruct) (k : String) : Option PbValue :=
  (fields.find? (fun p => p.1 == k)).map Prod.snd

/-- Embeds `structpb.Value.GetStringValue`: the string payload, or `""` for any
other kind. -/
def PbValue.getStringValue : PbValue → String
  | .stringValue s => s
  | _ => ""

/-- Whether a `PbValue` is a `StringValue`. -/
def PbValue.isStringValue : PbValue → Bool
  | .stringValue _ => true
  | _ => false

mutual
/-- Embeds `valueToInterface` (`internal/translator.go`) on a possibly-nil
`*structpb.Value`: nil and `NullValue` map to Go nil, a nil inner
`*ListValue` maps to Go nil, and the `default` branch (unset kind)
maps to Go nil. -/
def valueToInterface : Option PbValue → JVal
  | none => JVal.null
  | some v => valueToInterfaceV v

/-- The kind switch of `valueToInterface` on a non-nil `*structpb.Value`. -/
def valueToInterfaceV : PbValue → JVal
  | .nullValue => JVal.null
  | .numberValue n => JVal.number n
  | .stringValue s => JVal.str s
  | .boolValue b => JVal.boolean b
  | .structValue none => JVal.nilMap
  | .structValue (some fs) => JVal.obj (structToMapFields fs)
  | .listValue none => JVal.null
  | .listValue (some xs) => JVal.arr (valueListToInterface xs)
  | .unknownKind => JVal.null

/-- The element loop of the `ListValue` branch of `valueToInterface`. -/
def valueListToInterface : List PbValue → List JVal
  | [] => []
  | x :: xs => valueToInterfaceV x :: valueListToInterface xs

/-- The field loop of `StructToMap` (`internal/translator.go`). -/
def structToMapFields : List (String × PbValue) → List (String × JVal)
  | [] => []
  | (k, v) :: rest => (k, valueToInterfaceV v) :: structToMapFields rest
end

/-- Embeds `StructToMap` (`internal/translator.go`): nil struct to nil map,
otherwise each field through `valueToInterface`. -/
def StructToMap : Option PbStruct → Option (List (String × JVal))
  | none => none
  | some fields => some (structToMapFields fields)

mutual
/-- Model of the library function `structpb.NewValue` at the Go types that
can actually reach it here (`nil`, `bool`, `float64`, `string`, `[]any`,
`map[string]any`); `unsupported` stands for everything it rejects. A typed
nil `map[string]any` converts like any map: zero iterations, empty struct. -/
def newValue : JVal → Except String PbValue
  | .null => .ok .nullValue
  | .boolean b => .ok (.boolValue b)
  | .number n => .ok (.numberValue n)
  | .str s => .ok (.stringValue s)
  | .arr xs =>
    match newValueList xs with
    | .error e => .error e
    | .ok ys => .ok (.listValue (some ys))
  | .obj m =>
    match newStructFields m with
    | .error e => .error e
    | .ok fs => .ok (.structValue (some fs))
  | .nilMap => .ok (.structValue (some []))
  | .unsupported d => .error ("proto: invalid type: " ++ d)

/-- The element loop of `structpb.NewList`. -/
def newValueList : List JVal → Except String (List PbValue)
  | [] => .ok []
  | x :: xs =>
    match newValue x with
    | .error e => .error e
    | .ok y =>
      match newValueList xs with
      | .error e => .error e
      | .ok ys => .ok (y :: ys)

/-- The field loop of `structpb.NewStruct`. -/
def newStructFields : List (String × JVal) → Except String PbStruct
  | [] => .ok []
  | (k, v) :: rest =>
    match newValue v with
    | .error e => .error e
    | .ok pv =>
      match newStructFields rest with
      | .error e => .error e
      | .ok fs => .ok ((k, pv) :: fs)
end

/-- Model of the library function `structpb.NewStruct` on a possibly-nil
`map[string]any`: a nil map yields an empty (non-nil) struct. -/
def structpbNewStruct : Option (List (String × JVal)) → Except String PbStruct
  | none => .ok []
  | some fields => newStructFields fields

/-- Embeds `MapToStruct` (`internal/translator.go`): delegates to
`structpb.NewStruct`. -/
def MapToStruct : Option (List (String × JVal)) → Except String PbStruct :=
  structpbNewStruct

/-! ### Model of `encoding/json` serialization of translator output

`extractResultText` falls back to `json.Marshal` of the map produced by
`StructToMap`. The serializer below models that call: compact JSON, objects
rendered in the association list's order (Go sorts map keys; the list model
already fixes an order), strings quoted with quote/backslash escaping (the
full control-character and HTML escape table is elided — no claim inspects
escaped text). Numbers: Go renders `float64` with `strconv`'s shortest
representation; integral rationals render identically, and nothing below
depends on non-integral digits. -/

/-- Rendering of a model number, matching Go for integral values. -/
def ratToGoString (q : Rat) : String :=
  if q.den = 1 then toString q.num else toString q

/-- One character of a JSON string literal. -/
def jsonQuoteChar (c : Char) : String :=
  if c = '"' then "\\\"" else if c = '\\' then "\\\\" else String.singleton c

/-- A JSON string literal. -/
def jsonQuote (s : String) : String :=
  "\"" ++ String.join (s.toList.map jsonQuoteChar) ++ "\""

mutual
/-- Compact JSON rendering of a dynamic Go value. `nilMap` (a nil
`map[string]any`) marshals as `null`, as in Go; `unsupported` never occurs
in translator output (`valueToInterface` cannot produce it), which is the
only place this serializer is applied. -/
def goJsonMarshal : JVal → String
  | .null => "null"
  | .boolean b => if b then "true" else "false"
  | .number q => ratToGoString q
  | .str s => jsonQuote s
  | .arr xs => "[" ++ goJsonMarshalList xs ++ "]"
  | .obj m => "\x7b" ++ goJsonMarshalFields m ++ "\x7d"
  | .nilMap => "null"
  | .unsupported _ => "null"

/-- Comma-separated array elements. -/
def goJsonMarshalList : List JVal → String
  | [] => ""
  | [x] => goJsonMarshal x
  | x :: y :: rest => goJsonMarshal x ++ "," ++ goJsonMarshalList (y :: rest)

/-- Comma-separated object members. -/
def goJsonMarshalFields : List (String × JVal) → String
  | [] => ""
  | [(k, v)] => jsonQuote k ++ ":" ++ goJsonMarshal v
  | (k, v) :: p :: rest =>
    jsonQuote k ++ ":" ++ goJsonMarshal v ++ "," ++ goJsonMarshalFields (p :: rest)
end

/-- Embeds `json.Marshal` applied to a possibly-nil `map[string]any`: a nil map
marshals as `null`. -/
def goJsonMarshalOptMap : Option (List (String × JVal)) → String
  | none => "null"
  | some m => "\x7b" ++ goJsonMarshalFields m ++ "\x7d"

/-! ### Protobuf message types used by the handlers -/

/-- Embeds `pluginv1.ToolResponse`. Proto3 scalar getters return zero values, so
`errorCode`/`errorMessage` are plain strings defaulting to `""`; the
`result` struct pointer may be nil. -/
structure ToolResponse where
  success : Bool
  result : Option PbStruct
  errorCode : String
  errorMessage : String

/-- Embeds `pluginv1.ToolDefinition`. -/
structure ToolDefinition where
  name : String
  description : String
  inputSchema : Option PbStruct

/-- Embeds `pluginv1.PromptArgument`. -/
structure PromptArgument where
  name : String
  description : String
  required : Bool

/-- Embeds `pluginv1.PromptDefinition`. -/
structure PromptDefinition where
  name : String
  description : String
  arguments : List PromptArgument

/-- Embeds `pluginv1.PromptContent` (role message content). -/
structure PromptContent where
  type : String
  text : String

/-- Embeds `pluginv1.PromptMessage`. -/
structure PromptMessage where
  role : String
  content : Option PromptContent

/-- Embeds `pluginv1.PromptGetResponse`. -/
structure PromptGetResponse where
  description : String
  messages : List PromptMessage

/-! ### MCP-side result types (`sdk-go/protocol`) -/

/-- Embeds `protocol.MCPContent`: one content block. -/
structure MCPContent where
  type : String
  text : String

/-- Embeds `protocol.MCPToolResult`. -/
structure MCPToolResult where
  content : List MCPContent
  isError : Bool

/-- Embeds `protocol.MCPToolDefinition`; `inputSchema` is a dynamic value that is
nil when the tool has no schema. -/
structure MCPToolDefinition where
  name : String
  description : String
  inputSchema : Option (List (String × JVal))

/-- Embeds `protocol.MCPPromptArgument`. -/
structure MCPPromptArgument where
  name : String
  description : String
  required : Bool

/-- Embeds `protocol.MCPPromptDefinition`. -/
structure MCPPromptDefinition where
  name : String
  description : String
  arguments : List MCPPromptArgument

/-- Embeds `protocol.MCPPromptMessage`; content is a value struct, zero when the
protobuf message had none. -/
structure MCPPromptMessage where
  role : String
  content : Option MCPContent

/-- Embeds `protocol.MCPPromptResult`. -/
structure MCPPromptResult where
  description : String
  messages : List MCPPromptMessage

/-! ### Translator functions over messages (`internal/translator.go`) -/

/-- Embeds `extractResultText`: nil struct to `""`; a `text` field short-circuits
through `GetStringValue`; otherwise the whole struct is JSON-serialized.
(The `json.Marshal` error branch of the source is unreachable in the model:
the serializer is total on translator output.) -/
def extractResultText : Option PbStruct → String
  | none => ""
  | some s =>
    match getField s "text" with
    | some v => v.getStringValue
    | none => goJsonMarshalOptMap (StructToMap (some s))

/-- Embeds `ToolResponseToMCP`: failure renders the error message (or a synthesized
`tool error: <code>` when empty) with `isError` set; success renders
`extractResultText` of the result. -/
def ToolResponseToMCP (resp : ToolResponse) : MCPToolResult :=
  if !resp.success then
    let errMsg :=
      if resp.errorMessage == "" then "tool error: " ++ resp.errorCode
      else resp.errorMessage
    { content := [{ type := "text", text := errMsg }], isError := true }
  else
    let text := extractResultText resp.result
    { content := [{ type := "text", text := text }], isError := false }

/-- Embeds `ToolDefinitionToMCP`: name and description copied; a non-nil input
schema goes through `StructToMap`, a nil one stays nil. -/
def ToolDefinitionToMCP (td : ToolDefinition) : MCPToolDefinition :=
  { name := td.name
    description := td.description
    inputSchema :=
      match td.inputSchema with
      | none => none
      | some s => StructToMap (some s) }

/-- Embeds `PromptDefinitionToMCP`. -/
def PromptDefinitionToMCP (pd : PromptDefinition) : MCPPromptDefinition :=
  { name := pd.name
    description := pd.description
    arguments := pd.arguments.map (fun a =>
      { name := a.name, description := a.description, required := a.required }) }

/-- Embeds `PromptGetResponseToMCP`. -/
def PromptGetResponseToMCP (resp : PromptGetResponse) : MCPPromptResult :=
  { description := resp.description
    messages := resp.messages.map (fun m =>
      { role := m.role
        content :=
          match m.content with
          | none => none
          | some c => some { type := c.type, text := c.text } }) }

/-! ### JSON-RPC envelope (`sdk-go/protocol`, shapes fixed by
`docs/PROTOCOL.md` and their use in `internal/transport.go`) -/

/-- The fixed JSON-RPC error codes (`docs/PROTOCOL.md`, Error Codes). -/
def ParseError : Int := -32700

/-- Embeds `-32600 InvalidRequest` (`docs/PROTOCOL.md`). -/
def InvalidRequest : Int := -32600

/-- Embeds `-32601 MethodNotFound` (`docs/PROTOCOL.md`). -/
def MethodNotFound : Int := -32601

/-- Embeds `-32602 InvalidParams` (`docs/PROTOCOL.md`). -/
def InvalidParams : Int := -32602

/-- Embeds `-32603 InternalError` (`docs/PROTOCOL.md`). -/
def InternalError : Int := -32603

/-- Embeds `protocol.JSONRPCRequest`. `id` is a dynamic value (`any`); Go cannot
distinguish an absent `id` from an explicit `null` (both decode to nil), so
`none` covers both and marks a JSON-RPC notification. `params` is the raw
params payload, `none` when absent; a present payload is a well-formed JSON
value because the enclosing line parsed. -/
structure JSONRPCRequest where
  jsonrpc : String
  id : Option JVal
  method : String
  params : Option JVal

/-- Embeds `protocol.JSONRPCError`. -/
structure JSONRPCError where
  code : Int
  message : String

/-- The dynamic `Result` payloads the handlers place in responses. -/
inductive ResultPayload where
  | initializeResult (protocolVersion : String) (toolsCap : Bool)
      (promptsCap : Bool) (serverName : String) (serverVersion : String)
  | emptyObject
  | toolsList (tools : List MCPToolDefinition)
  | toolResult (r : MCPToolResult)
  | promptsList (prompts : List MCPPromptDefinition)
  | promptResult (r : MCPPromptResult)

/-- Embeds `protocol.JSONRPCResponse`. -/
structure JSONRPCResponse where
  jsonrpc : String
  id : Option JVal
  result : Option ResultPayload
  error : Option JSONRPCError

/-! ### Plugin protocol messages (`gen-go/orchestra/plugin/v1`) -/

/-- Embeds `pluginv1.ToolRequest`. -/
structure ToolRequest where
  toolName : String
  arguments : Option PbStruct
  callerPlugin : String

/-- Embeds `pluginv1.PromptGetRequest`. -/
structure PromptGetRequest where
  promptName : String
  arguments : List (String × String)

/-- The `request` oneof of `pluginv1.PluginRequest`. -/
inductive PluginRequestBody where
  | listTools
  | toolCall (tr : ToolRequest)
  | listPrompts
  | promptGet (pg : PromptGetRequest)

/-- Embeds `pluginv1.PluginRequest`. -/
structure PluginRequest where
  requestId : String
  request : PluginRequestBody

/-- The `response` oneof of `pluginv1.PluginResponse`; `none` models an
unset oneof. -/
inductive PluginResponseBody where
  | listTools (tools : List ToolDefinition)
  | toolCall (tr : ToolResponse)
  | listPrompts (prompts : List PromptDefinition)
  | promptGet (pg : PromptGetResponse)

/-- Embeds `pluginv1.PluginResponse`. -/
structure PluginResponse where
  requestId : String
  response : Option PluginResponseBody

/-- Embeds `PluginResponse.GetToolCall`: nil unless the oneof holds a tool call. -/
def PluginResponse.GetToolCall (r : PluginResponse) : Option ToolResponse :=
  match r.response with
  | some (.toolCall tr) => some tr
  | _ => none

/-- Embeds `PluginResponse.GetListTools`. -/
def PluginResponse.GetListTools (r : PluginResponse) : Option (List ToolDefinition) :=
  match r.response with
  | some (.listTools ts) => some ts
  | _ => none

/-- Embeds `PluginResponse.GetListPrompts`. -/
def PluginResponse.GetListPrompts (r : PluginResponse) : Option (List PromptDefinition) :=
  match r.response with
  | some (.listPrompts ps) => some ps
  | _ => none

/-- Embeds `PluginResponse.GetPromptGet`. -/
def PluginResponse.GetPromptGet (r : PluginResponse) : Option PromptGetResponse :=
  match r.response with
  | some (.promptGet pg) => some pg
  | _ => none

/-- The `Sender` interface (`internal/transport.go`): one synchronous
request/response round trip, or a transport failure carrying Go error text.
The context argument is only consumed by the sender and is elided. -/
abbrev SendFn := PluginRequest → Except String PluginResponse

/-- Embeds `fmt.Sprintf("%v", ...)` on a request id (`any`): nil prints
`<nil>`, strings print raw, numbers print Go-style; composite ids do not
occur in practice and their rendering is abbreviated. Used only to build
backend correlation ids, which no claim inspects. -/
def fmtV : Option JVal → String
  | none => "<nil>"
  | some (.boolean b) => if b then "true" else "false"
  | some (.number q) => ratToGoString q
  | some (.str s) => s
  | some _ => "<value>"

/-! ### `tools/call` and `prompts/get` params decoding

`handleToolsCall` runs `json.Unmarshal(req.Params, &params)` into
`toolCallParams`. The library semantics modelled: the payload must be a JSON
object (or `null`, which leaves the struct zero); `name` must be a string
(`null` leaves the zero `""`); `arguments` must be an object (`null` leaves
the nil map); any other shape is a decode error. Unknown object keys are
ignored. Synthesized error texts abbreviate the library's. -/

/-- Embeds `toolCallParams` (`internal/handler.go`): `arguments` is a possibly-nil
`map[string]any`. -/
structure toolCallParams where
  name : String
  arguments : Option (List (String × JVal))

/-- Decode of the `name` string field. -/
def decodeStringField (fieldName : String) : Option JVal → Except String String
  | none => .ok ""
  | some .null => .ok ""
  | some (.str s) => .ok s
  | some _ => .error ("json: cannot unmarshal value into Go struct field " ++ fieldName ++ " of type string")

/-- Decode of the `arguments` object field of `toolCallParams`. -/
def decodeArgsField : Option JVal → Except String (Option (List (String × JVal)))
  | none => .ok none
  | some .null => .ok none
  | some (.obj m) => .ok (some m)
  | some _ => .error "json: cannot unmarshal value into Go struct field toolCallParams.arguments of type map[string]interface \x7b\x7d"

/-- Association-list lookup on a JSON object. -/
def lookupJ (fields : List (String × JVal)) (k : String) : Option JVal :=
  (fields.find? (fun p => p.1 == k)).map Prod.snd

/-- Embeds `json.Unmarshal` of a params payload into `toolCallParams`. -/
def decodeToolCallParams : JVal → Except String toolCallParams
  | .null => .ok { name := "", arguments := none }
  | .obj fields =>
    match decodeStringField "toolCallParams.name" (lookupJ fields "name") with
    | .error e => .error e
    | .ok n =>
      match decodeArgsField (lookupJ fields "arguments") with
      | .error e => .error e
      | .ok args => .ok { name := n, arguments := args }
  | _ => .error "json: cannot unmarshal value into Go value of type internal.toolCallParams"

/-- The params parse step of `handleToolsCall`: absent params leave the
zero `toolCallParams`, present params are unmarshalled. -/
def toolCallParse : Option JVal → Except String toolCallParams
  | none => .ok { name := "", arguments := none }
  | some p => decodeToolCallParams p

/-- The argument conversion step of `handleToolsCall`: a nil arguments map
is passed through as a nil `*structpb.Struct` (no conversion attempted); a
non-nil one goes through `structpb.NewStruct`. -/
def toolCallArgs : Option (List (String × JVal)) → Except String (Option PbStruct)
  | none => .ok none
  | some m =>
    match newStructFields m with
    | .error e => .error e
    | .ok s => .ok (some s)

/-- Embeds `promptGetParams` (`internal/handler.go`): `arguments` is a possibly-nil
`map[string]string`. -/
structure promptGetParams where
  name : String
  arguments : List (String × String)

/-- Decode of the string-valued `arguments` map of `promptGetParams`. -/
def decodeStringMap : List (String × JVal) → Except String (List (String × String))
  | [] => .ok []
  | (k, v) :: rest =>
    match v with
    | .str s =>
      match decodeStringMap rest with
      | .error e => .error e
      | .ok m => .ok ((k, s) :: m)
    | .null =>
      match decodeStringMap rest with
      | .error e => .error e
      | .ok m => .ok ((k, "") :: m)
    | _ => .error "json: cannot unmarshal value into Go struct field promptGetParams.arguments of type string"

/-- Embeds `json.Unmarshal` of a params payload into `promptGetParams`. -/
def decodePromptGetParams : JVal → Except String promptGetParams
  | .null => .ok { name := "", arguments := [] }
  | .obj fields =>
    match decodeStringField "promptGetParams.name" (lookupJ fields "name") with
    | .error e => .error e
    | .ok n =>
      match lookupJ fields "arguments" with
      | none => .ok { name := n, arguments := [] }
      | some .null => .ok { name := n, arguments := [] }
      | some (.obj m) =>
        match decodeStringMap m with
        | .error e => .error e
        | .ok args => .ok { name := n, arguments := args }
      | some _ => .error "json: cannot unmarshal value into Go struct field promptGetParams.arguments of type map[string]string"
  | _ => .error "json: cannot unmarshal value into Go value of type internal.promptGetParams"

/-- The params parse step of `handlePromptsGet`. -/
def promptGetParse : Option JVal → Except String promptGetParams
  | none => .ok { name := "", arguments := [] }
  | some p => decodePromptGetParams p

/-! ### Handlers (`internal/handler.go`)

Each handler returns the JSON-RPC response it produces together with the
list of `PluginRequest`s it sent through the `Sender`, in order, so that
theorems can speak about whether and what the backend was asked. The
`internal/` tree carries the handler file twice; the copies agree on every
function cited by the claims, and the fuller copy (with the prompts
handlers, which `dispatch` requires) is the one embedded. -/

/-- Shorthand for a response carrying only an error. -/
def errorResponse (id : Option JVal) (code : Int) (message : String) : JSONRPCResponse :=
  { jsonrpc := "2.0", id := id, result := none
    error := some { code := code, message := message } }

/-- Embeds `handleInitialize`: pure, fixed protocol version, capabilities and
server identity; the id is echoed. -/
def handleInitialize (req : JSONRPCRequest) : JSONRPCResponse :=
  { jsonrpc := "2.0", id := req.id
    result := some (.initializeResult "2024-11-05" true true "orchestra" "1.0.0")
    error := none }

/-- Embeds `handlePing`: pure, empty object result; the id is echoed. -/
def handlePing (req : JSONRPCRequest) : JSONRPCResponse :=
  { jsonrpc := "2.0", id := req.id, result := some .emptyObject, error := none }

/-- The `PluginRequest` built by `handleToolsList`. -/
def listToolsRequest (id : Option JVal) : PluginRequest :=
  { requestId := "stdio-lt-" ++ fmtV id, request := .listTools }

/-- Embeds `handleToolsList`: one backend round trip; transport failure and a
wrong-shape reply produce `InternalError` responses, a good reply is
translated definition by definition, preserving order. -/
def handleToolsList (send : SendFn) (req : JSONRPCRequest) :
    JSONRPCResponse × List PluginRequest :=
  let preq := listToolsRequest req.id
  match send preq with
  | .error e =>
    (errorResponse req.id InternalError ("orchestrator list_tools failed: " ++ e), [preq])
  | .ok resp =>
    match resp.GetListTools with
    | none =>
      (errorResponse req.id InternalError "unexpected response type from orchestrator", [preq])
    | some tools =>
      ({ jsonrpc := "2.0", id := req.id
         result := some (.toolsList (tools.map ToolDefinitionToMCP))
         error := none }, [preq])

/-- The `PluginRequest` built by `handleToolsCall` once params are good. -/
def toolCallRequest (id : Option JVal) (name : String) (args : Option PbStruct) :
    PluginRequest :=
  { requestId := "stdio-tc-" ++ fmtV id
    request := .toolCall { toolName := name, arguments := args
                           callerPlugin := "transport.stdio" } }

/-- Embeds `handleToolsCall`: params decode errors, a missing/empty `name` and an
argument conversion failure each yield `InvalidParams` before any send;
then one backend round trip whose failure or wrong shape yields
`InternalError`, and whose good reply is rendered by `ToolResponseToMCP`. -/
def handleToolsCall (send : SendFn) (req : JSONRPCRequest) :
    JSONRPCResponse × List PluginRequest :=
  match toolCallParse req.params with
  | .error e => (errorResponse req.id InvalidParams ("invalid params: " ++ e), [])
  | .ok params =>
    if params.name == "" then
      (errorResponse req.id InvalidParams "missing required parameter: name", [])
    else
      match toolCallArgs params.arguments with
      | .error e => (errorResponse req.id InvalidParams ("invalid arguments: " ++ e), [])
      | .ok args =>
        let preq := toolCallRequest req.id params.name args
        match send preq with
        | .error e =>
          (errorResponse req.id InternalError ("orchestrator tool_call failed: " ++ e), [preq])
        | .ok resp =>
          match resp.GetToolCall with
          | none =>
            (errorResponse req.id InternalError "unexpected response type from orchestrator", [preq])
          | some tc =>
            ({ jsonrpc := "2.0", id := req.id
               result := some (.toolResult (ToolResponseToMCP tc))
               error := none }, [preq])

/-- The `PluginRequest` built by `handlePromptsList`. -/
def listPromptsRequest (id : Option JVal) : PluginRequest :=
  { requestId := "stdio-lp-" ++ fmtV id, request := .listPrompts }

/-- Embeds `handlePromptsList`: mirror of `handleToolsList` for prompts. -/
def handlePromptsList (send : SendFn) (req : JSONRPCRequest) :
    JSONRPCResponse × List PluginRequest :=
  let preq := listPromptsRequest req.id
  match send preq with
  | .error e =>
    (errorResponse req.id InternalError ("orchestrator list_prompts failed: " ++ e), [preq])
  | .ok resp =>
    match resp.GetListPrompts with
    | none =>
      (errorResponse req.id InternalError "unexpected response type from orchestrator", [preq])
    | some prompts =>
      ({ jsonrpc := "2.0", id := req.id
         result := some (.promptsList (prompts.map PromptDefinitionToMCP))
         error := none }, [preq])

/-- The `PluginRequest` built by `handlePromptsGet`. -/
def promptGetRequest (id : Option JVal) (name : String)
    (args : List (String × String)) : PluginRequest :=
  { requestId := "stdio-pg-" ++ fmtV id
    request := .promptGet { promptName := name, arguments := args } }

/-- Embeds `handlePromptsGet`: mirror of `handleToolsCall` for prompts (string
arguments pass through without structpb conversion). -/
def handlePromptsGet (send : SendFn) (req : JSONRPCRequest) :
    JSONRPCResponse × List PluginRequest :=
  match promptGetParse req.params with
  | .error e => (errorResponse req.id InvalidParams ("invalid params: " ++ e), [])
  | .ok params =>
    if params.name == "" then
      (errorResponse req.id InvalidParams "missing required parameter: name", [])
    else
      let preq := promptGetRequest req.id params.name params.arguments
      match send preq with
      | .error e =>
        (errorResponse req.id InternalError ("orchestrator prompt_get failed: " ++ e), [preq])
      | .ok resp =>
        match resp.GetPromptGet with
        | none =>
          (errorResponse req.id InternalError "unexpected response type from orchestrator", [preq])
        | some pg =>
          ({ jsonrpc := "2.0", id := req.id
             result := some (.promptResult (PromptGetResponseToMCP pg))
             error := none }, [preq])

/-! ### Dispatcher and run loop (`internal/transport.go`) -/

/-- Embeds `strings.HasPrefix`, evaluated character by character (Lean's own
`String.startsWith` is defined by well-founded recursion and does not
evaluate inside the kernel). -/
def goHasPrefix (s pre : String) : Bool :=
  pre.toList.isPrefixOf s.toList

/-- The exact-match method table of `dispatch`. -/
def handledMethods : List String :=
  ["initialize", "ping", "tools/list", "tools/call", "prompts/list", "prompts/get"]

/-- Embeds `dispatch`: exact-match switch over the method, then the
`notifications/` prefix test in the default branch (`none` = no response),
then the `MethodNotFound` error naming the method. -/
def dispatch (send : SendFn) (req : JSONRPCRequest) :
    Option JSONRPCResponse × List PluginRequest :=
  match req.method with
  | "initialize" => (some (handleInitialize req), [])
  | "ping" => (some (handlePing req), [])
  | "tools/list" =>
    let r := handleToolsList send req
    (some r.1, r.2)
  | "tools/call" =>
    let r := handleToolsCall send req
    (some r.1, r.2)
  | "prompts/list" =>
    let r := handlePromptsList send req
    (some r.1, r.2)
  | "prompts/get" =>
    let r := handlePromptsGet send req
    (some r.1, r.2)
  | _ =>
    if goHasPrefix req.method "notifications/" then (none, [])
    else
      (some (errorResponse req.id MethodNotFound
        ("method not found: " ++ req.method)), [])

/-- One input line as the scanner and `json.Unmarshal` classify it: blank
after trimming, malformed JSON (with the decode error text), or a parsed
request. JSON parsing itself is library code; the loop only branches on its
outcome. -/
inductive Line where
  | blank : Line
  | malformed : String → Line
  | request : JSONRPCRequest → Line

/-- The response `Run` writes for a malformed line: `ParseError`, nil id. -/
def parseErrorResponse (e : String) : JSONRPCResponse :=
  errorResponse none ParseError ("parse error: " ++ e)

/-- How exiting the loop is observed. Serialization of a response and the
output writer are total in the model, so the write-failure exits of the
source do not arise. -/
inductive RunExit where
  | eof : RunExit
  | cancelled : RunExit

/-- What a run of the loop produces: the response lines written in order,
the backend requests sent in order, the input lines never scanned, and how
the loop exited. -/
structure RunResult where
  outputs : List JSONRPCResponse
  sent : List PluginRequest
  remaining : List Line
  exit : RunExit

/-- The response/sends of one scanned line (the loop body after the
cancellation check): blank lines are skipped, malformed lines produce the
parse-error response, requests are dispatched. -/
def lineOut (send : SendFn) : Line → Option JSONRPCResponse × List PluginRequest
  | .blank => (none, [])
  | .malformed e => (some (parseErrorResponse e), [])
  | .request req => dispatch send req

/-- The loop of `Run`: `reader.Scan()` is the loop condition, so a line is
consumed first; `ctx.Err()` is then checked at the top of the body, and a
triggered cancellation returns before the scanned line is parsed or
dispatched. `cancelled i` models whether the context is already cancelled
when iteration `i` performs that check. -/
def runAux (send : SendFn) (cancelled : Nat → Bool) : Nat → List Line → RunResult
  | _, [] => { outputs := [], sent := [], remaining := [], exit := .eof }
  | i, l :: rest =>
    if cancelled i then
      { outputs := [], sent := [], remaining := rest, exit := .cancelled }
    else
      let step := lineOut send l
      let tail := runAux send cancelled (i + 1) rest
      { outputs := step.1.toList ++ tail.outputs
        sent := step.2 ++ tail.sent
        remaining := tail.remaining
        exit := tail.exit }

/-- Embeds `StdioTransport.Run` over a finite input. -/
def Run (send : SendFn) (cancelled : Nat → Bool) (lines : List Line) : RunResult :=
  runAux send cancelled 0 lines

/-- Modelled from the spec: the spec's run loop, which checks the
externally supplied cancellation signal *before* reading the next line
(`spec.md` §5). Stated only to compare against `Run`, which is embedded
from `internal/transport.go`; the two differ in whether a line is consumed
when cancellation is already triggered. -/
def runCheckFirstAux (send : SendFn) (cancelled : Nat → Bool) :
    Nat → List Line → RunResult
  | i, lines =>
    if cancelled i then
      { outputs := [], sent := [], remaining := lines, exit := .cancelled }
    else
      match lines with
      | [] => { outputs := [], sent := [], remaining := [], exit := .eof }
      | l :: rest =>
        let step := lineOut send l
        let tail := runCheckFirstAux send cancelled (i + 1) rest
        { outputs := step.1.toList ++ tail.outputs
          sent := step.2 ++ tail.sent
          remaining := tail.remaining
          exit := tail.exit }

/-- Modelled from the spec: wrapper of `runCheckFirstAux`. -/
def runCheckFirst (send : SendFn) (cancelled : Nat → Bool) (lines : List Line) :
    RunResult :=
  runCheckFirstAux send cancelled 0 lines

/-! ### Helper lemmas -/

/-- Without cancellation, the loop writes exactly the per-line responses in
input order and exits at end of input. -/
theorem runAux_false (send : SendFn) (i : Nat) (lines : List Line) :
    runAux send (fun _ => false) i lines =
      { outputs := lines.filterMap (fun l => (lineOut send l).1)
        sent := lines.flatMap (fun l => (lineOut send l).2)
        remaining := []
        exit := .eof } := by
  induction lines generalizing i with
  | nil => rfl
  | cons l rest ih =>
    simp only [runAux, ih, List.filterMap_cons, List.flatMap_cons]
    cases h : (lineOut send l).1 <;> simp [h, Option.toList]

/-- Embeds `Run` without cancellation, line-level form. -/
theorem Run_false_outputs (send : SendFn) (lines : List Line) :
    (Run send (fun _ => false) lines).outputs =
      lines.filterMap (fun l => (lineOut send l).1) := by
  simp [Run, runAux_false]

/-- Every `handleToolsCall` response echoes the request id. -/
theorem handleToolsCall_id (send : SendFn) (req : JSONRPCRequest) :
    (handleToolsCall send req).1.id = req.id := by
  unfold handleToolsCall
  dsimp only
  repeat' split
  all_goals rfl

/-- Every `handleToolsList` response echoes the request id. -/
theorem handleToolsList_id (send : SendFn) (req : JSONRPCRequest) :
    (handleToolsList send req).1.id = req.id := by
  unfold handleToolsList
  dsimp only
  repeat' split
  all_goals rfl

/-- Every `handlePromptsList` response echoes the request id. -/
theorem handlePromptsList_id (send : SendFn) (req : JSONRPCRequest) :
    (handlePromptsList send req).1.id = req.id := by
  unfold handlePromptsList
  dsimp only
  repeat' split
  all_goals rfl

/-- Every `handlePromptsGet` response echoes the request id. -/
theorem handlePromptsGet_id (send : SendFn) (req : JSONRPCRequest) :
    (handlePromptsGet send req).1.id = req.id := by
  unfold handlePromptsGet
  dsimp only
  repeat' split
  all_goals rfl

/-- Every response `dispatch` produces echoes the request id. -/
theorem dispatch_id (send : SendFn) (req : JSONRPCRequest) (resp : JSONRPCResponse)
    (h : (dispatch send req).1 = some resp) : resp.id = req.id := by
  unfold dispatch at h
  split at h
  · rw [← Option.some.inj h]
    rfl
  · rw [← Option.some.inj h]
    rfl
  · rw [← Option.some.inj h]
    exact handleToolsList_id send req
  · rw [← Option.some.inj h]
    exact handleToolsCall_id send req
  · rw [← Option.some.inj h]
    exact handlePromptsList_id send req
  · rw [← Option.some.inj h]
    exact handlePromptsGet_id send req
  · split at h
    · exact absurd h (by simp)
    · rw [← Option.some.inj h]
      rfl

/-- Outside the notification prefix, `dispatch` always answers. -/
theorem dispatch_isSome (send : SendFn) (req : JSONRPCRequest)
    (h : goHasPrefix req.method "notifications/" = false) :
    ((dispatch send req).1).isSome = true := by
  unfold dispatch
  split
  · rfl
  · rfl
  · rfl
  · rfl
  · rfl
  · rfl
  · split
    · rename_i hpre
      rw [h] at hpre
      cases hpre
    · rfl

/-! ### Concrete fixtures used by witnesses -/

/-- A sender that always fails with the test suite's failure text. -/
def sendRefuse : SendFn := fun _ => .error "connection refused"

/-- A sender that answers every request with an unset response oneof. -/
def sendWrongShape : SendFn :=
  fun preq => .ok { requestId := preq.requestId, response := none }

/-- A ping request with numeric id 42. -/
def pingReq42 : JSONRPCRequest :=
  { jsonrpc := "2.0", id := some (JVal.number 42), method := "ping", params := none }

/-! ### Claims -/

/-- C1: for every valid non-notification request line read by the run loop
(id present, method outside the reserved `notifications/` prefix), exactly
one response line is written, responses appear in arrival order — the
output is the per-line responses of the input lines, in order — and the
response's id equals the request's id verbatim (same `JVal`, so a numeric
id stays numeric and a string id stays string). -/
theorem claim1_one_ordered_response_with_id_echo (send : SendFn) (lines : List Line) :
    (Run send (fun _ => false) lines).outputs
        = lines.filterMap (fun l => (lineOut send l).1)
    ∧ ∀ req : JSONRPCRequest, req.id.isSome = true →
        goHasPrefix req.method "notifications/" = false →
        ((lineOut send (Line.request req)).1).map JSONRPCResponse.id = some req.id := by
  refine ⟨Run_false_outputs send lines, ?_⟩
  intro req _hid hpre
  cases h : (dispatch send req).1 with
  | none =>
    have hs := dispatch_isSome send req hpre
    rw [h] at hs
    cases hs
  | some resp =>
    have hid := dispatch_id send req resp h
    show ((dispatch send req).1).map JSONRPCResponse.id = some req.id
    rw [h]
    simp [hid]

/-- Witness for C1: the concrete ping request with numeric id 42 yields
exactly one response whose id is the same numeric 42. -/
theorem claim1_witness :
    ((lineOut sendRefuse (Line.request pingReq42)).1).map JSONRPCResponse.id
      = some (some (JVal.number 42)) :=
  (claim1_one_ordered_response_with_id_echo sendRefuse []).2 pingReq42 rfl rfl

/-- C2 (code bug): the claim — and the source's own comment "Notifications
(no ID) get no response" — say an id-less request produces no output for
any method; but `dispatch` never inspects the id, so the run loop answers
an id-less `ping` with one response line (id null). This theorem evaluates
the embedded code at the failing input. -/
theorem claim2_code_bug_idless_ping_produces_response :
    (Run sendRefuse (fun _ => false)
        [Line.request { jsonrpc := "2.0", id := none, method := "ping", params := none }]).outputs
      = [{ jsonrpc := "2.0", id := none, result := some .emptyObject, error := none }] := rfl

/-- A `StringValue` check that evaluates to `""` for every other kind, as
`GetStringValue` does. -/
theorem getStringValue_of_not_string (v : PbValue) (h : v.isStringValue = false) :
    v.getStringValue = "" := by
  cases v <;> simp_all [PbValue.isStringValue, PbValue.getStringValue]

/-- C3: every backend `ToolResponse` renders to a tool result with exactly
one content block of type `text`; on `success=false` the text is
`errorMessage` when non-empty, else the synthesized `tool error: <code>`
string, with `isError=true`; on `success=true` a string-valued `text`
field of the result struct is used verbatim with `isError=false`, and an
absent `text` field makes the whole result serialize as compact JSON. -/
theorem claim3_tool_result_rendering (resp : ToolResponse) :
    ((ToolResponseToMCP resp).content.length = 1
      ∧ (ToolResponseToMCP resp).content.all (fun c => c.type == "text") = true)
    ∧ (resp.success = false →
        ((resp.errorMessage == "") = false →
          (ToolResponseToMCP resp).content = [{ type := "text", text := resp.errorMessage }]
          ∧ (ToolResponseToMCP resp).isError = true)
        ∧ ((resp.errorMessage == "") = true →
          (ToolResponseToMCP resp).content
              = [{ type := "text", text := "tool error: " ++ resp.errorCode }]
          ∧ (ToolResponseToMCP resp).isError = true))
    ∧ (resp.success = true →
        (∀ res s, resp.result = some res →
          getField res "text" = some (PbValue.stringValue s) →
          (ToolResponseToMCP resp).content = [{ type := "text", text := s }]
          ∧ (ToolResponseToMCP resp).isError = false)
        ∧ (∀ res, resp.result = some res →
          getField res "text" = none →
          (ToolResponseToMCP resp).content
              = [{ type := "text", text := goJsonMarshalOptMap (StructToMap (some res)) }]
          ∧ (ToolResponseToMCP resp).isError = false)) := by
  refine ⟨?_, ?_, ?_⟩
  · unfold ToolResponseToMCP
    split <;> simp
  · intro hf
    constructor
    · intro hm
      simp [ToolResponseToMCP, hf, hm]
    · intro hm
      simp [ToolResponseToMCP, hf, hm, eq_of_beq hm]
  · intro ht
    constructor
    · intro res s hres hfield
      simp [ToolResponseToMCP, ht, extractResultText, hres, hfield, PbValue.getStringValue]
    · intro res hres hfield
      simp [ToolResponseToMCP, ht, extractResultText, hres, hfield]

/-- A concrete failed tool response with a non-empty error message. -/
def toolRespFailed : ToolResponse :=
  { success := false, result := none, errorCode := "tool_not_found", errorMessage := "tool not found" }

/-- Witness for C3: a concrete failed response with non-empty error
message renders that message with `isError=true`. -/
theorem claim3_witness :
    (ToolResponseToMCP toolRespFailed).content = [{ type := "text", text := "tool not found" }]
    ∧ (ToolResponseToMCP toolRespFailed).isError = true :=
  ((claim3_tool_result_rendering toolRespFailed).2.1 rfl).1 rfl

/-- C10: on `success=true`, a `text` field holding a non-string value
renders as the empty string (neither serialized nor an error), and an
absent result struct also renders as the empty string. -/
theorem claim10_nonstring_text_field_gives_empty_text (resp : ToolResponse) :
    (resp.success = true →
      ∀ res v, resp.result = some res →
        getField res "text" = some v →
        v.isStringValue = false →
        (ToolResponseToMCP resp).content = [{ type := "text", text := "" }]
        ∧ (ToolResponseToMCP resp).isError = false)
    ∧ (resp.success = true → resp.result = none →
        (ToolResponseToMCP resp).content = [{ type := "text", text := "" }]
        ∧ (ToolResponseToMCP resp).isError = false) := by
  constructor
  · intro ht res v hres hfield hv
    simp [ToolResponseToMCP, ht, extractResultText, hres, hfield,
      getStringValue_of_not_string v hv]
  · intro ht hres
    simp [ToolResponseToMCP, ht, extractResultText, hres]

/-- A concrete successful tool response whose `text` field is numeric. -/
def toolRespNumericText : ToolResponse :=
  { success := true, result := some [("text", PbValue.numberValue 7)], errorCode := "", errorMessage := "" }

/-- Witness for C10: a numeric `text` field renders as the empty string. -/
theorem claim10_witness :
    (ToolResponseToMCP toolRespNumericText).content = [{ type := "text", text := "" }]
    ∧ (ToolResponseToMCP toolRespNumericText).isError = false :=
  (claim10_nonstring_text_field_gives_empty_text toolRespNumericText).1 rfl
    [("text", PbValue.numberValue 7)] (PbValue.numberValue 7) rfl rfl rfl

/-- C4: `tools/call` with unparsable params yields `InvalidParams`; missing
or empty `name` (which absent params also produce) yields `InvalidParams`
whose message names `name`; an arguments map the structured model rejects
yields `InvalidParams` describing the conversion failure; and in all three
cases no backend request is ever sent. -/
theorem claim4_tools_call_invalid_params_before_send (send : SendFn) (req : JSONRPCRequest) :
    (∀ e, toolCallParse req.params = .error e →
        (handleToolsCall send req).1.error
            = some { code := InvalidParams, message := "invalid params: " ++ e }
        ∧ (handleToolsCall send req).2 = [])
    ∧ (∀ p, toolCallParse req.params = .ok p → (p.name == "") = true →
        (handleToolsCall send req).1.error
            = some { code := InvalidParams, message := "missing required parameter: name" }
        ∧ (handleToolsCall send req).2 = [])
    ∧ (∀ p e, toolCallParse req.params = .ok p → (p.name == "") = false →
        toolCallArgs p.arguments = .error e →
        (handleToolsCall send req).1.error
            = some { code := InvalidParams, message := "invalid arguments: " ++ e }
        ∧ (handleToolsCall send req).2 = []) := by
  refine ⟨?_, ?_, ?_⟩
  · intro e hp
    simp [handleToolsCall, hp, errorResponse]
  · intro p hp hname
    simp [handleToolsCall, hp, hname, errorResponse]
  · intro p e hp hname hargs
    simp [handleToolsCall, hp, hname, hargs, errorResponse]

/-- A `tools/call` request whose params carry no `name`. -/
def toolsCallNoNameReq : JSONRPCRequest :=
  { jsonrpc := "2.0", id := some (JVal.number 6), method := "tools/call"
    params := some (JVal.obj [("arguments", JVal.obj [])]) }

/-- Witness for C4: concrete params without `name` produce the
`InvalidParams` error naming `name`, and nothing is sent. -/
theorem claim4_witness :
    (handleToolsCall sendRefuse toolsCallNoNameReq).1.error
        = some { code := InvalidParams, message := "missing required parameter: name" }
    ∧ (handleToolsCall sendRefuse toolsCallNoNameReq).2 = [] :=
  (claim4_tools_call_invalid_params_before_send sendRefuse toolsCallNoNameReq).2.1
    { name := "", arguments := some [] } rfl rfl

/-- C5: for `tools/call` and `tools/list`, a backend `Send` failure yields
an `InternalError` response whose message carries the failure text verbatim
(as suffix of the fixed prefix), and a `Send` success whose reply oneof
does not hold the expected payload yields an `InternalError` response with
the orchestrator wrong-shape message. -/
theorem claim5_backend_failure_and_wrong_shape (send : SendFn) (req : JSONRPCRequest) :
    (∀ p args e, toolCallParse req.params = .ok p → (p.name == "") = false →
        toolCallArgs p.arguments = .ok args →
        send (toolCallRequest req.id p.name args) = .error e →
        (handleToolsCall send req).1.error
            = some { code := InternalError, message := "orchestrator tool_call failed: " ++ e })
    ∧ (∀ p args presp, toolCallParse req.params = .ok p → (p.name == "") = false →
        toolCallArgs p.arguments = .ok args →
        send (toolCallRequest req.id p.name args) = .ok presp →
        presp.GetToolCall = none →
        (handleToolsCall send req).1.error
            = some { code := InternalError, message := "unexpected response type from orchestrator" })
    ∧ (∀ e, send (listToolsRequest req.id) = .error e →
        (handleToolsList send req).1.error
            = some { code := InternalError, message := "orchestrator list_tools failed: " ++ e })
    ∧ (∀ presp, send (listToolsRequest req.id) = .ok presp → presp.GetListTools = none →
        (handleToolsList send req).1.error
            = some { code := InternalError, message := "unexpected response type from orchestrator" }) := by
  refine ⟨?_, ?_, ?_, ?_⟩
  · intro p args e hp hname hargs hsend
    simp [handleToolsCall, hp, hname, hargs, hsend, errorResponse]
  · intro p args presp hp hname hargs hsend hshape
    simp [handleToolsCall, hp, hname, hargs, hsend, hshape, errorResponse]
  · intro e hsend
    simp [handleToolsList, hsend, errorResponse]
  · intro presp hsend hshape
    simp [handleToolsList, hsend, hshape, errorResponse]

/-- A well-formed `tools/call` request naming a tool and no arguments. -/
def toolsCallReq : JSONRPCRequest :=
  { jsonrpc := "2.0", id := some (JVal.number 5), method := "tools/call"
    params := some (JVal.obj [("name", JVal.str "create_feature")]) }

/-- Witness for C5: with a sender that fails with `connection refused`,
the concrete `tools/call` yields `InternalError` carrying that text. -/
theorem claim5_witness :
    (handleToolsCall sendRefuse toolsCallReq).1.error
        = some { code := InternalError
                 message := "orchestrator tool_call failed: connection refused" } :=
  (claim5_backend_failure_and_wrong_shape sendRefuse toolsCallReq).1
    { name := "create_feature", arguments := none } none "connection refused" rfl rfl rfl rfl

/-- A method outside the table with the notification prefix routes to the
silent outcome with nothing sent. -/
theorem dispatch_notification_none (send : SendFn) (req : JSONRPCRequest)
    (hpre : goHasPrefix req.method "notifications/" = true)
    (hc : handledMethods.contains req.method = false) :
    dispatch send req = (none, []) := by
  unfold dispatch
  split
  · rename_i heq
    exact absurd hc (by rw [heq]; decide)
  · rename_i heq
    exact absurd hc (by rw [heq]; decide)
  · rename_i heq
    exact absurd hc (by rw [heq]; decide)
  · rename_i heq
    exact absurd hc (by rw [heq]; decide)
  · rename_i heq
    exact absurd hc (by rw [heq]; decide)
  · rename_i heq
    exact absurd hc (by rw [heq]; decide)
  · rw [hpre]
    rfl

/-- A method outside the table and outside the notification prefix routes
to the `MethodNotFound` error naming the method. -/
theorem dispatch_unknown (send : SendFn) (req : JSONRPCRequest)
    (hc : handledMethods.contains req.method = false)
    (hpre : goHasPrefix req.method "notifications/" = false) :
    dispatch send req
      = (some (errorResponse req.id MethodNotFound ("method not found: " ++ req.method)), []) := by
  unfold dispatch
  split
  · rename_i heq
    exact absurd hc (by rw [heq]; decide)
  · rename_i heq
    exact absurd hc (by rw [heq]; decide)
  · rename_i heq
    exact absurd hc (by rw [heq]; decide)
  · rename_i heq
    exact absurd hc (by rw [heq]; decide)
  · rename_i heq
    exact absurd hc (by rw [heq]; decide)
  · rename_i heq
    exact absurd hc (by rw [heq]; decide)
  · rw [hpre]
    simp

/-- C7 (counterexample): the claim says the loop checks cancellation
*before* reading the next line and, when already triggered, stops without
consuming input. With cancellation triggered from the start and one
request line queued, the embedded `Run` (scan first, then check) has
consumed the line (`remaining = []`), while the loop written from the
spec's words (`runCheckFirst`) leaves it unread — so the code does not
check before reading. -/
theorem claim7_counterexample_read_precedes_check :
    (Run sendRefuse (fun _ => true) [Line.request pingReq42]).remaining = []
    ∧ (runCheckFirst sendRefuse (fun _ => true) [Line.request pingReq42]).remaining
        = [Line.request pingReq42]
    ∧ (Run sendRefuse (fun _ => true) [Line.request pingReq42]).exit = RunExit.cancelled :=
  ⟨rfl, rfl, rfl⟩

/-- C7 (amended): the run loop checks the cancellation signal at the top
of each iteration body, after the blocking read but before parsing or
dispatching the line just read; if the signal is already triggered it
stops immediately — no response is written, no backend request is started,
the scanned line is discarded — and a request already in flight runs to
completion (the loop body is never preempted once dispatch begins). -/
theorem claim7_amended_cancel_checked_after_scan (send : SendFn) (c : Nat → Bool)
    (l : Line) (rest : List Line) (h : c 0 = true) :
    (Run send c (l :: rest)).outputs = []
    ∧ (Run send c (l :: rest)).sent = []
    ∧ (Run send c (l :: rest)).exit = RunExit.cancelled
    ∧ (Run send c (l :: rest)).remaining = rest := by
  simp [Run, runAux, h]

/-- Witness for C7's amended theorem at a concrete cancelled loop. -/
theorem claim7_witness :
    (Run sendRefuse (fun _ => true) [Line.request pingReq42, Line.blank]).outputs = []
    ∧ (Run sendRefuse (fun _ => true) [Line.request pingReq42, Line.blank]).sent = []
    ∧ (Run sendRefuse (fun _ => true) [Line.request pingReq42, Line.blank]).exit
        = RunExit.cancelled
    ∧ (Run sendRefuse (fun _ => true) [Line.request pingReq42, Line.blank]).remaining
        = [Line.blank] :=
  claim7_amended_cancel_checked_after_scan sendRefuse (fun _ => true)
    (Line.request pingReq42) [Line.blank] rfl

/-- C8: a request whose method carries the `notifications/` prefix and
matches no exact table entry routes to the silent outcome — no response,
nothing sent, zero output lines through the loop — regardless of its id or
params; and the prefix test is secondary: every exact table match routes
to a handler that answers. -/
theorem claim8_notification_prefix_silent (send : SendFn) (req : JSONRPCRequest) :
    (goHasPrefix req.method "notifications/" = true →
        handledMethods.contains req.method = false →
        (dispatch send req).1 = none
        ∧ (dispatch send req).2 = []
        ∧ (Run send (fun _ => false) [Line.request req]).outputs = [])
    ∧ (handledMethods.contains req.method = true →
        ((dispatch send req).1).isSome = true) := by
  constructor
  · intro hpre hc
    have hd := dispatch_notification_none send req hpre hc
    refine ⟨by rw [hd], by rw [hd], ?_⟩
    rw [Run_false_outputs]
    simp [lineOut, hd]
  · intro hc
    have hmem : req.method ∈ handledMethods := by
      have := List.contains_iff_exists_mem_beq.mp hc
      obtain ⟨a, ha, hbeq⟩ := this
      rw [eq_of_beq hbeq]
      exact ha
    unfold dispatch
    split
    · rfl
    · rfl
    · rfl
    · rfl
    · rfl
    · rfl
    · rename_i h1 h2 h3 h4 h5 h6
      simp only [handledMethods, List.mem_cons, List.not_mem_nil, or_false] at hmem
      rcases hmem with h | h | h | h | h | h
      · exact absurd h h1
      · exact absurd h h2
      · exact absurd h h3
      · exact absurd h h4
      · exact absurd h h5
      · exact absurd h h6

/-- A notification with an id and a nonsense params payload. -/
def notifOddReq : JSONRPCRequest :=
  { jsonrpc := "2.0", id := some (JVal.str "x"), method := "notifications/initialized"
    params := some (JVal.number 3) }

/-- Witness for C8: the concrete prefixed request — with an id and a
non-object params payload — produces no response and no output line. -/
theorem claim8_witness :
    (dispatch sendRefuse notifOddReq).1 = none
    ∧ (dispatch sendRefuse notifOddReq).2 = []
    ∧ (Run sendRefuse (fun _ => false) [Line.request notifOddReq]).outputs = [] :=
  (claim8_notification_prefix_silent sendRefuse notifOddReq).1 rfl rfl

/-- C9: a malformed input line produces one response with the `ParseError`
code and a null id; a well-formed request with a present id whose method
matches neither the table nor the notification prefix produces one response
with the `MethodNotFound` code whose message carries the literal method
name. -/
theorem claim9_parse_error_and_method_not_found (send : SendFn) (e : String)
    (req : JSONRPCRequest) :
    (Run send (fun _ => false) [Line.malformed e]).outputs
        = [errorResponse none ParseError ("parse error: " ++ e)]
    ∧ (req.id.isSome = true →
        handledMethods.contains req.method = false →
        goHasPrefix req.method "notifications/" = false →
        (Run send (fun _ => false) [Line.request req]).outputs
          = [errorResponse req.id MethodNotFound ("method not found: " ++ req.method)]) := by
  constructor
  · rfl
  · intro _hid hc hpre
    rw [Run_false_outputs]
    simp [lineOut, dispatch_unknown send req hc hpre]

/-- An unknown-method request with numeric id 10. -/
def unknownMethodReq : JSONRPCRequest :=
  { jsonrpc := "2.0", id := some (JVal.number 10), method := "unknown/method", params := none }

/-- Witness for C9: the concrete unknown-method request yields the
`MethodNotFound` response naming the method, id echoed. -/
theorem claim9_witness :
    (Run sendRefuse (fun _ => false) [Line.request unknownMethodReq]).outputs
        = [errorResponse (some (JVal.number 10)) MethodNotFound "method not found: unknown/method"] :=
  (claim9_parse_error_and_method_not_found sendRefuse "x" unknownMethodReq).2 rfl rfl rfl

/-! ### Well-formedness for the round-trip claim

A `PbValue` expressible in both value models: no nil inner pointers, no
unset kind. A `JVal` expressible in both models: no typed-nil map, no value
outside the structured model. -/

mutual
/-- Well-formed structured value. -/
def PbValue.wf : PbValue → Bool
  | .nullValue => true
  | .numberValue _ => true
  | .stringValue _ => true
  | .boolValue _ => true
  | .structValue none => false
  | .structValue (some fs) => wfFields fs
  | .listValue none => false
  | .listValue (some xs) => wfList xs
  | .unknownKind => false

/-- Well-formed list payload. -/
def wfList : List PbValue → Bool
  | [] => true
  | x :: xs => x.wf && wfList xs

/-- Well-formed struct fields. -/
def wfFields : List (String × PbValue) → Bool
  | [] => true
  | (_, v) :: rest => v.wf && wfFields rest
end

mutual
/-- Native value expressible in the structured model. -/
def JVal.supported : JVal → Bool
  | .null => true
  | .boolean _ => true
  | .number _ => true
  | .str _ => true
  | .arr xs => supportedList xs
  | .obj m => supportedFields m
  | .nilMap => false
  | .unsupported _ => false

/-- Supported list elements. -/
def supportedList : List JVal → Bool
  | [] => true
  | x :: xs => x.supported && supportedList xs

/-- Supported object values. -/
def supportedFields : List (String × JVal) → Bool
  | [] => true
  | (_, v) :: rest => v.supported && supportedFields rest
end

mutual
/-- Structured-to-native-to-structured is the identity on well-formed
values. -/
theorem roundtrip_value (v : PbValue) (h : v.wf = true) :
    newValue (valueToInterfaceV v) = .ok v := by
  cases v with
  | nullValue => rfl
  | numberValue n => rfl
  | stringValue s => rfl
  | boolValue b => rfl
  | structValue s =>
    cases s with
    | none => exact absurd h (by simp [PbValue.wf])
    | some fs =>
      have hf : wfFields fs = true := h
      simp only [valueToInterfaceV, newValue, roundtrip_fields fs hf]
  | listValue l =>
    cases l with
    | none => exact absurd h (by simp [PbValue.wf])
    | some xs =>
      have hx : wfList xs = true := h
      simp only [valueToInterfaceV, newValue, roundtrip_list xs hx]
  | unknownKind => exact absurd h (by simp [PbValue.wf])

/-- List version of `roundtrip_value`. -/
theorem roundtrip_list (xs : List PbValue) (h : wfList xs = true) :
    newValueList (valueListToInterface xs) = .ok xs := by
  cases xs with
  | nil => rfl
  | cons x rest =>
    rw [wfList, Bool.and_eq_true] at h
    simp only [valueListToInterface, newValueList, roundtrip_value x h.1,
      roundtrip_list rest h.2]

/-- Fields version of `roundtrip_value`. -/
theorem roundtrip_fields (fs : List (String × PbValue)) (h : wfFields fs = true) :
    newStructFields (structToMapFields fs) = .ok fs := by
  cases fs with
  | nil => rfl
  | cons p rest =>
    cases p with
    | mk k v =>
      rw [wfFields, Bool.and_eq_true] at h
      simp only [structToMapFields, newStructFields, roundtrip_value v h.1,
        roundtrip_fields rest h.2]
end

mutual
/-- Native-to-structured-to-native is the identity on supported values. -/
theorem roundtrip_native (v : JVal) (h : v.supported = true) :
    ∃ pv, newValue v = .ok pv ∧ valueToInterfaceV pv = v := by
  cases v with
  | null => exact ⟨.nullValue, rfl, rfl⟩
  | boolean b => exact ⟨.boolValue b, rfl, rfl⟩
  | number n => exact ⟨.numberValue n, rfl, rfl⟩
  | str s => exact ⟨.stringValue s, rfl, rfl⟩
  | arr xs =>
    have hx : supportedList xs = true := h
    obtain ⟨ys, h1, h2⟩ := roundtrip_native_list xs hx
    exact ⟨.listValue (some ys), by simp only [newValue, h1],
      by simp only [valueToInterfaceV, h2]⟩
  | obj m =>
    have hm : supportedFields m = true := h
    obtain ⟨gs, h1, h2⟩ := roundtrip_native_fields m hm
    exact ⟨.structValue (some gs), by simp only [newValue, h1],
      by simp only [valueToInterfaceV, h2]⟩
  | nilMap => exact absurd h (by simp [JVal.supported])
  | unsupported d => exact absurd h (by simp [JVal.supported])

/-- List version of `roundtrip_native`. -/
theorem roundtrip_native_list (xs : List JVal) (h : supportedList xs = true) :
    ∃ ys, newValueList xs = .ok ys ∧ valueListToInterface ys = xs := by
  cases xs with
  | nil => exact ⟨[], rfl, rfl⟩
  | cons x rest =>
    rw [supportedList, Bool.and_eq_true] at h
    obtain ⟨y, hy1, hy2⟩ := roundtrip_native x h.1
    obtain ⟨ys, hs1, hs2⟩ := roundtrip_native_list rest h.2
    refine ⟨y :: ys, ?_, ?_⟩
    · simp only [newValueList, hy1, hs1]
    · simp only [valueListToInterface, hy2, hs2]

/-- Fields version of `roundtrip_native`. -/
theorem roundtrip_native_fields (fs : List (String × JVal))
    (h : supportedFields fs = true) :
    ∃ gs, newStructFields fs = .ok gs ∧ structToMapFields gs = fs := by
  cases fs with
  | nil => exact ⟨[], rfl, rfl⟩
  | cons p rest =>
    cases p with
    | mk k v =>
      rw [supportedFields, Bool.and_eq_true] at h
      obtain ⟨pv, hv1, hv2⟩ := roundtrip_native v h.1
      obtain ⟨gs, hs1, hs2⟩ := roundtrip_native_fields rest h.2
      refine ⟨(k, pv) :: gs, ?_, ?_⟩
      · simp only [newStructFields, hv1, hs1]
      · simp only [structToMapFields, hv2, hs2]
end

/-- C6: translating a structured value to the native representation and
back is the identity on values expressible in both models (`MapToStruct`
after `StructToMap`), and native-to-structured-to-native is likewise the
identity on supported values; at the optional positions the null/absent
asymmetry is preserved as the code has it: an absent struct translates to
native nil (`StructToMap`), the handler passes a nil/null arguments map
through as an absent struct without conversion, and a definition with an
absent schema synthesizes a nil native schema (which serializes as null). -/
theorem claim6_roundtrips :
    (∀ s : PbStruct, wfFields s = true →
        MapToStruct (StructToMap (some s)) = .ok s)
    ∧ (∀ v : JVal, v.supported = true →
        ∃ pv, newValue v = .ok pv ∧ valueToInterface (some pv) = v)
    ∧ StructToMap none = none
    ∧ toolCallArgs none = .ok none
    ∧ (∀ td : ToolDefinition, td.inputSchema = none →
        (ToolDefinitionToMCP td).inputSchema = none) := by
  refine ⟨?_, ?_, rfl, rfl, ?_⟩
  · intro s hs
    show structpbNewStruct (some (structToMapFields s)) = .ok s
    simp only [structpbNewStruct, roundtrip_fields s hs]
  · intro v hv
    obtain ⟨pv, h1, h2⟩ := roundtrip_native v hv
    exact ⟨pv, h1, h2⟩
  · intro td htd
    simp [ToolDefinitionToMCP, htd]

/-- Witness for C6: the structured round trip at a concrete one-field
struct, and the absent-schema synthesis at a concrete definition. -/
theorem claim6_witness :
    MapToStruct (StructToMap (some [("k", PbValue.numberValue 1)]))
        = .ok [("k", PbValue.numberValue 1)]
    ∧ (ToolDefinitionToMCP { name := "t", description := "d", inputSchema := none }).inputSchema
        = none :=
  ⟨claim6_roundtrips.1 [("k", PbValue.numberValue 1)] rfl,
   claim6_roundtrips.2.2.2.2 { name := "t", description := "d", inputSchema := none } rfl⟩

end TransportStdio
